import Mathlib

/-!
Verification of the `ikbo` register machine: the instruction encoders of
`asm.py` (`LoadInst.to_bytes`, `ReadInst.to_bytes`, `WriteInst.to_bytes`,
`AddInst.to_bytes`, `parse_register`, `parse_line`) and the interpreter of
`vm.py` (`VM._decode_load`, `VM._decode_read`, `VM._decode_write`,
`VM._decode_add`, `VM.execute`).

Modelling conventions for the Python source:
* Python integers are unbounded, so numeric fields are `Int` (assembler side,
  where `int()` can produce negative values) or `Nat` (decoded values, which
  are always nonnegative).
* For an arbitrary-precision integer `x` and a positive constant `2^k`,
  Python's `x & (2^k - 1)` equals `Int.emod x (2^k)` and `x >> k` equals
  `Int.ediv x (2^k)` (floor division and nonnegative remainder agree for a
  positive divisor).  On the decoder side all operands are nonnegative
  machine bytes, so `Nat` bitwise operations mirror the Python expressions
  verbatim.
* Python list indexing `l[i]` accepts negative indices (`l[i] = l[len l + i]`
  for `-len l ≤ i < 0`) and raises `IndexError` otherwise; `pyGet` models
  exactly this.  The interpreter's own `RuntimeError`s are modelled as
  `VMError.memoryFault` (messages "адрес вне памяти") and
  `VMError.illegalInstruction` ("Неизвестная инструкция").
* Every mutation in `VM.execute` happens only after all reads and range
  checks of the same instruction succeeded (true of the source by
  inspection), so one instruction is modelled as an atomic
  `Except VMError VMState` step.
-/

set_option linter.unusedVariables false
set_option maxRecDepth 100000

deriving instance DecidableEq for Except

namespace Ikbo

/-- RAM_SIZE from vm.py. -/
def RAM_SIZE : Nat := 1024

/-- REG_COUNT from vm.py. -/
def REG_COUNT : Nat := 32

/-- Errors raised by the interpreter: the two `RuntimeError`s of `VM.execute`
plus Python's `IndexError` from an unchecked list access. -/
inductive VMError
  | illegalInstruction
  | memoryFault
  | indexError
deriving Repr, DecidableEq

/-- Errors raised by the assembler (`ValueError`s in asm.py, named as in the
spec's §7). -/
inductive AsmError
  | invalidOperand
  | arityError
  | unknownMnemonic
deriving Repr, DecidableEq

/-! ### Field Codec: encoders (asm.py `to_bytes` methods) -/

/-- LoadInst.to_bytes: `b0 = 67`, `b1 = const & 0xFF`, `b2 = (const >> 8) & 0xFF`,
`b3 = (const >> 16) & 0xFF`, `b4 = ((const >> 24) & 0x01) | ((reg & 0x1F) << 1)`. -/
def LoadInst_to_bytes (const reg : Int) : List Nat :=
  let b0 : Nat := 67
  let b1 : Nat := (const % 256).toNat
  let b2 : Nat := (const / 256 % 256).toNat
  let b3 : Nat := (const / 65536 % 256).toNat
  let b4 : Nat := (const / 16777216 % 2).toNat ||| (((reg % 32).toNat) <<< 1)
  [b0, b1, b2, b3, b4]

/-- ReadInst.to_bytes: `sr = src_reg & 0x1F`, `of = offset & 0x7F`,
`dr = dst_reg & 0x1F`; `b1 = ((sr & 0x1F) << 3) | ((of >> 4) & 0x07)`,
`b2 = ((of & 0x0F) << 4) | ((dr >> 1) & 0x0F)`, `b3 = (dr & 0x01) << 7`. -/
def ReadInst_to_bytes (src_reg offset dst_reg : Int) : List Nat :=
  let sr : Nat := (src_reg % 32).toNat
  let of : Nat := (offset % 128).toNat
  let dr : Nat := (dst_reg % 32).toNat
  let b0 : Nat := 200
  let b1 : Nat := ((sr &&& 31) <<< 3) ||| ((of >>> 4) &&& 7)
  let b2 : Nat := ((of &&& 15) <<< 4) ||| ((dr >>> 1) &&& 15)
  let b3 : Nat := (dr &&& 1) <<< 7
  [b0, b1, b2, b3]

/-- WriteInst.to_bytes: `sr = src_reg & 0x1F`, `dr = dst_reg & 0x1F`;
`b1 = ((sr & 0x1F) << 3) | ((dr >> 2) & 0x07)`, `b2 = (dr & 0x03) << 6`. -/
def WriteInst_to_bytes (src_reg dst_reg : Int) : List Nat :=
  let sr : Nat := (src_reg % 32).toNat
  let dr : Nat := (dst_reg % 32).toNat
  let b0 : Nat := 80
  let b1 : Nat := ((sr &&& 31) <<< 3) ||| ((dr >>> 2) &&& 7)
  let b2 : Nat := (dr &&& 3) <<< 6
  [b0, b1, b2]

/-- AddInst.to_bytes: `sr = src_reg & 0x1F`, `ad = addr & 0xFFF`,
`ar = addr_reg & 0x1F`; `b1 = ((sr & 0x1F) << 3) | ((ad >> 9) & 0x07)`,
`b2 = (ad >> 1) & 0xFF`, `b3 = ((ad & 0x01) << 7) | ((ar & 0x1F) << 2)`. -/
def AddInst_to_bytes (src_reg addr addr_reg : Int) : List Nat :=
  let sr : Nat := (src_reg % 32).toNat
  let ad : Nat := (addr % 4096).toNat
  let ar : Nat := (addr_reg % 32).toNat
  let b0 : Nat := 178
  let b1 : Nat := ((sr &&& 31) <<< 3) ||| ((ad >>> 9) &&& 7)
  let b2 : Nat := (ad >>> 1) &&& 255
  let b3 : Nat := ((ad &&& 1) <<< 7) ||| ((ar &&& 31) <<< 2)
  [b0, b1, b2, b3]

/-- The four instruction variants of asm.py (LoadInst, ReadInst, WriteInst,
AddInst) as a closed inductive; fields are Python ints. -/
inductive Instruction
  | load (const reg : Int)
  | read (src_reg offset dst_reg : Int)
  | write (src_reg dst_reg : Int)
  | add (src_reg addr addr_reg : Int)
deriving Repr, DecidableEq

/-- Serialization dispatch: each variant's `to_bytes`. -/
def Instruction.to_bytes : Instruction → List Nat
  | .load const reg => LoadInst_to_bytes const reg
  | .read src_reg offset dst_reg => ReadInst_to_bytes src_reg offset dst_reg
  | .write src_reg dst_reg => WriteInst_to_bytes src_reg dst_reg
  | .add src_reg addr addr_reg => AddInst_to_bytes src_reg addr addr_reg

/-! ### Field Codec: decoders (vm.py `VM._decode_*`) -/

/-- VM._decode_load: `const = b1 | (b2 << 8) | (b3 << 16) | ((b4 & 0x01) << 24)`,
`reg = (b4 >> 1) & 0x1F`. -/
def _decode_load (b0 b1 b2 b3 b4 : Nat) : Nat × Nat :=
  (b1 ||| (b2 <<< 8) ||| (b3 <<< 16) ||| ((b4 &&& 1) <<< 24), (b4 >>> 1) &&& 31)

/-- VM._decode_read: `src_reg = (b1 >> 3) & 0x1F`,
`offset = ((b1 & 0x07) << 4) | (b2 >> 4)`, `dst_reg = ((b2 & 0x0F) << 1) | (b3 >> 7)`. -/
def _decode_read (b0 b1 b2 b3 : Nat) : Nat × Nat × Nat :=
  ((b1 >>> 3) &&& 31, ((b1 &&& 7) <<< 4) ||| (b2 >>> 4), ((b2 &&& 15) <<< 1) ||| (b3 >>> 7))

/-- VM._decode_write: `src_reg = (b1 >> 3) & 0x1F`,
`dst_reg = ((b1 & 0x07) << 2) | (b2 >> 6)`. -/
def _decode_write (b0 b1 b2 : Nat) : Nat × Nat :=
  ((b1 >>> 3) &&& 31, ((b1 &&& 7) <<< 2) ||| (b2 >>> 6))

/-- VM._decode_add: `src_reg = (b1 >> 3) & 0x1F`,
`addr = ((b1 & 0x07) << 9) | (b2 << 1) | (b3 >> 7)`, `addr_reg = (b3 >> 2) & 0x1F`. -/
def _decode_add (b0 b1 b2 b3 : Nat) : Nat × Nat × Nat :=
  ((b1 >>> 3) &&& 31, ((b1 &&& 7) <<< 9) ||| (b2 <<< 1) ||| (b3 >>> 7), (b3 >>> 2) &&& 31)

/-- Decoder applied to a serialized 5-byte buffer, as `self._decode_load(*b)` is
applied to the slice `program[pc:pc+5]`. -/
def decodeLoadBytes (bs : List Nat) : Nat × Nat :=
  _decode_load (bs.getD 0 0) (bs.getD 1 0) (bs.getD 2 0) (bs.getD 3 0) (bs.getD 4 0)

/-- Decoder applied to a serialized 4-byte buffer. -/
def decodeReadBytes (bs : List Nat) : Nat × Nat × Nat :=
  _decode_read (bs.getD 0 0) (bs.getD 1 0) (bs.getD 2 0) (bs.getD 3 0)

/-- Decoder applied to a serialized 3-byte buffer. -/
def decodeWriteBytes (bs : List Nat) : Nat × Nat :=
  _decode_write (bs.getD 0 0) (bs.getD 1 0) (bs.getD 2 0)

/-- Decoder applied to a serialized 4-byte buffer. -/
def decodeAddBytes (bs : List Nat) : Nat × Nat × Nat :=
  _decode_add (bs.getD 0 0) (bs.getD 1 0) (bs.getD 2 0) (bs.getD 3 0)

/-! ### Machine state and interpreter (vm.py `VM`) -/

/-- The machine state owned by a `VM` instance: `self.ram`, `self.reg`,
`self.pc`.  Cell values are Python ints. -/
structure VMState where
  ram : List Int
  reg : List Int
  pc : Nat
deriving Repr, DecidableEq

/-- VM.__init__: ram = [0]*1024, reg = [0]*32, pc = 0. -/
def initState : VMState :=
  { ram := List.replicate RAM_SIZE 0, reg := List.replicate REG_COUNT 0, pc := 0 }

/-- Python list indexing `l[i]`: a negative index `-len l ≤ i < 0` addresses
`l[len l + i]`; an index outside `[-len l, len l)` raises `IndexError`. -/
def pyGet (l : List Int) (i : Int) : Except VMError Int :=
  if 0 ≤ i then
    if i < (l.length : Int) then .ok (l.getD i.toNat 0) else .error .indexError
  else
    if 0 ≤ i + (l.length : Int) then .ok (l.getD (i + (l.length : Int)).toNat 0)
    else .error .indexError

/-- One iteration of the `while self.pc < len(program)` loop of `VM.execute`:
fetch the opcode byte, dispatch on `(opcode, remaining length)`, decode, apply
semantics, advance `pc`.  Register accesses use `getD` because every decoded
register index is masked below 32 = len(reg); the one unchecked access,
`self.ram[self.reg[addr_reg]]` in the ADD branch, goes through `pyGet` and is
evaluated before the bounds check on the immediate `addr`, exactly as in the
source. -/
def execStep (prog : List Nat) (s : VMState) : Except VMError VMState :=
  let opcode := prog.getD s.pc 0
  if opcode = 67 ∧ s.pc + 4 < prog.length then
    let d := _decode_load (prog.getD s.pc 0) (prog.getD (s.pc + 1) 0)
      (prog.getD (s.pc + 2) 0) (prog.getD (s.pc + 3) 0) (prog.getD (s.pc + 4) 0)
    .ok { s with reg := s.reg.set d.2 (d.1 : Int), pc := s.pc + 5 }
  else if opcode = 200 ∧ s.pc + 3 < prog.length then
    let d := _decode_read (prog.getD s.pc 0) (prog.getD (s.pc + 1) 0)
      (prog.getD (s.pc + 2) 0) (prog.getD (s.pc + 3) 0)
    let addr : Int := s.reg.getD d.1 0 + (d.2.1 : Int)
    if 0 ≤ addr ∧ addr < (RAM_SIZE : Int) then
      .ok { s with reg := s.reg.set d.2.2 (s.ram.getD addr.toNat 0), pc := s.pc + 4 }
    else .error .memoryFault
  else if opcode = 80 ∧ s.pc + 2 < prog.length then
    let d := _decode_write (prog.getD s.pc 0) (prog.getD (s.pc + 1) 0)
      (prog.getD (s.pc + 2) 0)
    let addr : Int := s.reg.getD d.2 0
    if 0 ≤ addr ∧ addr < (RAM_SIZE : Int) then
      .ok { s with ram := s.ram.set addr.toNat (s.reg.getD d.1 0), pc := s.pc + 3 }
    else .error .memoryFault
  else if opcode = 178 ∧ s.pc + 3 < prog.length then
    let d := _decode_add (prog.getD s.pc 0) (prog.getD (s.pc + 1) 0)
      (prog.getD (s.pc + 2) 0) (prog.getD (s.pc + 3) 0)
    match pyGet s.ram (s.reg.getD d.2.2 0) with
    | .error e => .error e
    | .ok mem_val =>
      let result : Int := s.reg.getD d.1 0 + mem_val
      if d.2.1 < RAM_SIZE then
        .ok { s with ram := s.ram.set d.2.1 result, pc := s.pc + 4 }
      else .error .memoryFault
  else .error .illegalInstruction

/-- Result of `VM.execute`: normal halt with the final state, an uncaught
error together with the machine state at the moment it was raised, or fuel
exhaustion (used only to express termination; the real loop has no fuel). -/
inductive Outcome
  | halt (s : VMState)
  | err (e : VMError) (s : VMState)
  | outOfFuel (s : VMState)
deriving Repr, DecidableEq

/-- True exactly on the fuel-exhaustion outcome. -/
def Outcome.isOutOfFuel : Outcome → Bool
  | .outOfFuel _ => true
  | _ => false

/-- The `while self.pc < len(program)` loop of `VM.execute`, with an explicit
fuel counter bounding the number of iterations. -/
def run (prog : List Nat) : Nat → VMState → Outcome
  | fuel, s =>
    if s.pc < prog.length then
      match fuel with
      | 0 => .outOfFuel s
      | fuel' + 1 =>
        match execStep prog s with
        | .error e => .err e s
        | .ok s' => run prog fuel' s'
    else .halt s

/-- Successful multi-step execution: `s'` is reached from `s` by a (possibly
empty) chain of successfully completed instructions. -/
inductive Reaches (prog : List Nat) : VMState → VMState → Prop
  | refl (s : VMState) : Reaches prog s s
  | step {s s' s'' : VMState} :
      execStep prog s = .ok s' → Reaches prog s' s'' → Reaches prog s s''

/-! ### Assembler (asm.py `parse_register`, `parse_line`)

Strings are modelled as `List Char`; Python's `str.strip` and the regex
classes `\s`/`\d` are modelled over their ASCII range, which covers every
string the claims mention. -/

/-- Python `str.strip()`: drop whitespace from both ends. -/
def pyStrip (l : List Char) : List Char :=
  ((l.dropWhile Char.isWhitespace).reverse.dropWhile Char.isWhitespace).reverse

/-- Value of a nonempty decimal digit string, as Python `int()` computes it on
a digits-only string. -/
def digitsVal (ds : List Char) : Nat :=
  ds.foldl (fun a c => a * 10 + (c.toNat - 48)) 0

/-- asm.py `parse_register`: `re.match(r"^R(\d+)$", reg_str.strip(),
re.IGNORECASE)` — an `R` or `r` followed by one or more decimal digits — then
`int` of the digits, which must lie in `[0, 31]`.  Both failure branches raise
`ValueError`, the spec's `InvalidOperand`. -/
def parse_register (reg_str : List Char) : Except AsmError Int :=
  match pyStrip reg_str with
  | c :: rest =>
    if (c = 'R' ∨ c = 'r') ∧ rest ≠ [] ∧ rest.all Char.isDigit then
      let num : Int := (digitsVal rest : Int)
      if 0 ≤ num ∧ num ≤ 31 then .ok num else .error .invalidOperand
    else .error .invalidOperand
  | [] => .error .invalidOperand

/-- Python `int(s)` for base 10: optional surrounding whitespace, optional
sign, then one or more decimal digits (digit-group underscores are not
modelled; no claim uses them). -/
def pyInt (s : List Char) : Except AsmError Int :=
  match pyStrip s with
  | '-' :: ds =>
    if ds ≠ [] ∧ ds.all Char.isDigit then .ok (-(digitsVal ds : Int))
    else .error .invalidOperand
  | '+' :: ds =>
    if ds ≠ [] ∧ ds.all Char.isDigit then .ok (digitsVal ds : Int)
    else .error .invalidOperand
  | ds =>
    if ds ≠ [] ∧ ds.all Char.isDigit then .ok (digitsVal ds : Int)
    else .error .invalidOperand

/-- asm.py `parse_line`: strip the line; blank lines and `;` comments yield no
instruction; split mnemonic from the argument text at the first whitespace
run (`re.split(r"\s+", line, maxsplit=1)`); cut the argument text at `;` and
split it on commas; dispatch on the upper-cased mnemonic with an exact
argument count per mnemonic. -/
def parse_line (line : List Char) : Except AsmError (Option Instruction) :=
  let l := pyStrip line
  if l = [] ∨ l.head? = some ';' then .ok none
  else
    let mnemo := (l.takeWhile (fun c => ¬ c.isWhitespace)).map Char.toUpper
    let args_tail := (l.dropWhile (fun c => ¬ c.isWhitespace)).dropWhile Char.isWhitespace
    let args_str := pyStrip (args_tail.takeWhile (fun c => c ≠ ';'))
    let args := if args_str = [] then [] else (args_str.splitOn ',').map pyStrip
    if mnemo = "LOAD".toList then
      match args with
      | [a0, a1] => do
        let const ← pyInt a0
        let reg ← parse_register a1
        .ok (some (.load const reg))
      | _ => .error .arityError
    else if mnemo = "READ".toList then
      match args with
      | [a0, a1, a2] => do
        let rsrc ← parse_register a0
        let offset ← pyInt a1
        let rdst ← parse_register a2
        .ok (some (.read rsrc offset rdst))
      | _ => .error .arityError
    else if mnemo = "WRITE".toList then
      match args with
      | [a0, a1] => do
        let rsrc ← parse_register a0
        let rdst ← parse_register a1
        .ok (some (.write rsrc rdst))
      | _ => .error .arityError
    else if mnemo = "ADD".toList then
      match args with
      | [a0, a1, a2] => do
        let rsrc ← parse_register a0
        let addr ← pyInt a1
        let raddr ← parse_register a2
        .ok (some (.add rsrc addr raddr))
      | _ => .error .arityError
    else .error .unknownMnemonic

/-- Assembly of a whole source (asm.py `main`): parse each line in order,
fail fast on the first error, and concatenate the serialized bytes of the
parsed instructions. -/
def assemble : List (List Char) → Except AsmError (List Nat)
  | [] => .ok []
  | l :: rest => do
    let i ← parse_line l
    let tail ← assemble rest
    match i with
    | some instr => .ok (instr.to_bytes ++ tail)
    | none => .ok tail

/-- The program of the spec's end-to-end scenario 1. -/
def scenario1 : List (List Char) :=
  ["LOAD 10,R1".toList, "LOAD 5,R2".toList, "WRITE R1,R2".toList]

/-- Assemble scenario 1 and execute it from the initial all-zero state with
fuel equal to the program length; on a normal halt report `ram[5]`. -/
def scenario1_result : Option Int :=
  match assemble scenario1 with
  | .ok p =>
    match run p p.length initState with
    | .halt s => some (s.ram.getD 5 0)
    | _ => none
  | .error _ => none

/-! ### Bitwise-to-arithmetic bridge lemmas -/

/-- A shifted value or-ed with a small value is their sum. -/
theorem shl_lor {k : Nat} (a b : Nat) (hb : b < 2 ^ k) :
    (a <<< k) ||| b = a * 2 ^ k + b := by
  have h := (Nat.mul_add_lt_is_or hb a).symm
  rw [Nat.shiftLeft_eq, Nat.mul_comm a (2 ^ k), h, Nat.mul_comm]

/-- A small value or-ed with a shifted value is their sum. -/
theorem lor_shl {k : Nat} (a b : Nat) (ha : a < 2 ^ k) :
    a ||| (b <<< k) = b * 2 ^ k + a := by
  rw [Nat.lor_comm]; exact shl_lor b a ha

/-- Mask by `0x01` is `% 2`. -/
theorem and_mask1 (x : Nat) : x &&& 1 = x % 2 :=
  Nat.and_pow_two_sub_one_eq_mod x 1

/-- Mask by `0x03` is `% 4`. -/
theorem and_mask3 (x : Nat) : x &&& 3 = x % 4 :=
  Nat.and_pow_two_sub_one_eq_mod x 2

/-- Mask by `0x07` is `% 8`. -/
theorem and_mask7 (x : Nat) : x &&& 7 = x % 8 :=
  Nat.and_pow_two_sub_one_eq_mod x 3

/-- Mask by `0x0F` is `% 16`. -/
theorem and_mask15 (x : Nat) : x &&& 15 = x % 16 :=
  Nat.and_pow_two_sub_one_eq_mod x 4

/-- Mask by `0x1F` is `% 32`. -/
theorem and_mask31 (x : Nat) : x &&& 31 = x % 32 :=
  Nat.and_pow_two_sub_one_eq_mod x 5

/-- Mask by `0xFF` is `% 256`. -/
theorem and_mask255 (x : Nat) : x &&& 255 = x % 256 :=
  Nat.and_pow_two_sub_one_eq_mod x 8

/-! ### Arithmetic characterization of the decoders -/

/-- Arithmetic form of `VM._decode_load` on machine bytes. -/
theorem decode_load_arith (b0 b1 b2 b3 b4 : Nat)
    (h1 : b1 < 256) (h2 : b2 < 256) (h3 : b3 < 256) :
    _decode_load b0 b1 b2 b3 b4 =
      (b1 + b2 * 256 + b3 * 65536 + b4 % 2 * 16777216, b4 / 2 % 32) := by
  unfold _decode_load
  rw [and_mask1, and_mask31, Nat.shiftRight_eq_div_pow,
    lor_shl b1 b2 (show b1 < 2 ^ 8 by norm_num; omega),
    lor_shl _ b3 (show b2 * 2 ^ 8 + b1 < 2 ^ 16 by norm_num; omega),
    lor_shl _ (b4 % 2)
      (show b3 * 2 ^ 16 + (b2 * 2 ^ 8 + b1) < 2 ^ 24 by norm_num; omega)]
  norm_num
  omega

/-- Arithmetic form of `VM._decode_read` on machine bytes. -/
theorem decode_read_arith (b0 b1 b2 b3 : Nat) (h2 : b2 < 256) (h3 : b3 < 256) :
    _decode_read b0 b1 b2 b3 =
      (b1 / 8 % 32, b1 % 8 * 16 + b2 / 16, b2 % 16 * 2 + b3 / 128) := by
  unfold _decode_read
  rw [and_mask31, and_mask7, and_mask15, Nat.shiftRight_eq_div_pow,
    Nat.shiftRight_eq_div_pow, Nat.shiftRight_eq_div_pow,
    shl_lor (b1 % 8) _ (show b2 / 2 ^ 4 < 2 ^ 4 by norm_num; omega),
    shl_lor (b2 % 16) _ (show b3 / 2 ^ 7 < 2 ^ 1 by norm_num; omega)]
  norm_num

/-- Arithmetic form of `VM._decode_write` on machine bytes. -/
theorem decode_write_arith (b0 b1 b2 : Nat) (h2 : b2 < 256) :
    _decode_write b0 b1 b2 = (b1 / 8 % 32, b1 % 8 * 4 + b2 / 64) := by
  unfold _decode_write
  rw [and_mask31, and_mask7, Nat.shiftRight_eq_div_pow, Nat.shiftRight_eq_div_pow,
    shl_lor (b1 % 8) _ (show b2 / 2 ^ 6 < 2 ^ 2 by norm_num; omega)]
  norm_num

/-- Arithmetic form of `VM._decode_add` on machine bytes. -/
theorem decode_add_arith (b0 b1 b2 b3 : Nat) (h2 : b2 < 256) (h3 : b3 < 256) :
    _decode_add b0 b1 b2 b3 =
      (b1 / 8 % 32, b1 % 8 * 512 + b2 * 2 + b3 / 128, b3 / 4 % 32) := by
  unfold _decode_add
  rw [and_mask31, and_mask31, and_mask7, Nat.shiftRight_eq_div_pow,
    Nat.shiftRight_eq_div_pow, Nat.shiftRight_eq_div_pow,
    shl_lor (b1 % 8) _ (show b2 <<< 1 < 2 ^ 9 by rw [Nat.shiftLeft_eq]; norm_num; omega)]
  rw [Nat.shiftLeft_eq]
  rw [show b1 % 8 * 2 ^ 9 + b2 * 2 ^ 1 = (b1 % 8 * 2 ^ 8 + b2) <<< 1 by
    rw [Nat.shiftLeft_eq]; ring,
    shl_lor _ _ (show b3 / 2 ^ 7 < 2 ^ 1 by norm_num; omega)]
  norm_num
  omega

/-! ### Arithmetic characterization of the encoders -/

/-- Arithmetic form of `LoadInst.to_bytes`: the serialized bytes carry the low
25 bits of `const` and the low 5 bits of `reg`. -/
theorem LoadInst_to_bytes_arith (const reg : Int) :
    LoadInst_to_bytes const reg =
      [67, (const % 33554432).toNat % 256,
           (const % 33554432).toNat / 256 % 256,
           (const % 33554432).toNat / 65536 % 256,
           (reg % 32).toNat * 2 + (const % 33554432).toNat / 16777216 % 2] := by
  simp only [LoadInst_to_bytes]
  rw [lor_shl _ _ (show (const / 16777216 % 2).toNat < 2 ^ 1 by omega)]
  simp only [List.cons.injEq, eq_self_iff_true, true_and, and_true]
  omega

/-- Arithmetic form of `ReadInst.to_bytes`. -/
theorem ReadInst_to_bytes_arith (src_reg offset dst_reg : Int) :
    ReadInst_to_bytes src_reg offset dst_reg =
      [200,
       (src_reg % 32).toNat * 8 + (offset % 128).toNat / 16,
       (offset % 128).toNat % 16 * 16 + (dst_reg % 32).toNat / 2,
       (dst_reg % 32).toNat % 2 * 128] := by
  simp only [ReadInst_to_bytes]
  rw [and_mask31, and_mask7, and_mask15, and_mask15, and_mask1,
    Nat.shiftRight_eq_div_pow, Nat.shiftRight_eq_div_pow,
    shl_lor _ _ (show (offset % 128).toNat / 2 ^ 4 % 8 < 2 ^ 3 by omega),
    shl_lor _ _ (show (dst_reg % 32).toNat / 2 ^ 1 % 16 < 2 ^ 4 by omega),
    Nat.shiftLeft_eq]
  simp only [List.cons.injEq, eq_self_iff_true, true_and, and_true]
  omega

/-- Arithmetic form of `WriteInst.to_bytes`. -/
theorem WriteInst_to_bytes_arith (src_reg dst_reg : Int) :
    WriteInst_to_bytes src_reg dst_reg =
      [80,
       (src_reg % 32).toNat * 8 + (dst_reg % 32).toNat / 4,
       (dst_reg % 32).toNat % 4 * 64] := by
  simp only [WriteInst_to_bytes]
  rw [and_mask31, and_mask7, and_mask3,
    Nat.shiftRight_eq_div_pow,
    shl_lor _ _ (show (dst_reg % 32).toNat / 2 ^ 2 % 8 < 2 ^ 3 by omega),
    Nat.shiftLeft_eq]
  simp only [List.cons.injEq, eq_self_iff_true, true_and, and_true]
  omega

/-- Arithmetic form of `AddInst.to_bytes`. -/
theorem AddInst_to_bytes_arith (src_reg addr addr_reg : Int) :
    AddInst_to_bytes src_reg addr addr_reg =
      [178,
       (src_reg % 32).toNat * 8 + (addr % 4096).toNat / 512,
       (addr % 4096).toNat / 2 % 256,
       (addr % 4096).toNat % 2 * 128 + (addr_reg % 32).toNat * 4] := by
  simp only [AddInst_to_bytes]
  rw [and_mask31, and_mask31, and_mask7, and_mask255, and_mask1,
    Nat.shiftRight_eq_div_pow, Nat.shiftRight_eq_div_pow,
    shl_lor _ _ (show (addr % 4096).toNat / 2 ^ 9 % 8 < 2 ^ 3 by omega),
    shl_lor _ _ (show ((addr_reg % 32).toNat % 32) <<< 2 < 2 ^ 7 by
      rw [Nat.shiftLeft_eq]; omega),
    Nat.shiftLeft_eq]
  simp only [List.cons.injEq, eq_self_iff_true, true_and, and_true]
  omega

/-! ### Round-trips of decode after encode, with width masking -/

/-- Decoding an encoded LOAD recovers the fields reduced to their bit widths. -/
theorem load_roundtrip (const reg : Int) :
    decodeLoadBytes (LoadInst_to_bytes const reg) =
      ((const % 33554432).toNat, (reg % 32).toNat) := by
  rw [LoadInst_to_bytes_arith]
  simp only [decodeLoadBytes, List.getD_cons_zero, List.getD_cons_succ]
  rw [decode_load_arith _ _ _ _ _ (by omega) (by omega) (by omega)]
  refine Prod.ext ?_ ?_ <;> simp only [] <;> omega

/-- Decoding an encoded READ recovers the fields reduced to their bit widths. -/
theorem read_roundtrip (src_reg offset dst_reg : Int) :
    decodeReadBytes (ReadInst_to_bytes src_reg offset dst_reg) =
      ((src_reg % 32).toNat, (offset % 128).toNat, (dst_reg % 32).toNat) := by
  rw [ReadInst_to_bytes_arith]
  simp only [decodeReadBytes, List.getD_cons_zero, List.getD_cons_succ]
  rw [decode_read_arith _ _ _ _ (by omega) (by omega)]
  refine Prod.ext ?_ (Prod.ext ?_ ?_) <;> simp only [] <;> omega

/-- Decoding an encoded WRITE recovers the fields reduced to their bit widths. -/
theorem write_roundtrip (src_reg dst_reg : Int) :
    decodeWriteBytes (WriteInst_to_bytes src_reg dst_reg) =
      ((src_reg % 32).toNat, (dst_reg % 32).toNat) := by
  rw [WriteInst_to_bytes_arith]
  simp only [decodeWriteBytes, List.getD_cons_zero, List.getD_cons_succ]
  rw [decode_write_arith _ _ _ (by omega)]
  refine Prod.ext ?_ ?_ <;> simp only [] <;> omega

/-- Decoding an encoded ADD recovers the fields reduced to their bit widths. -/
theorem add_roundtrip (src_reg addr addr_reg : Int) :
    decodeAddBytes (AddInst_to_bytes src_reg addr addr_reg) =
      ((src_reg % 32).toNat, (addr % 4096).toNat, (addr_reg % 32).toNat) := by
  rw [AddInst_to_bytes_arith]
  simp only [decodeAddBytes, List.getD_cons_zero, List.getD_cons_succ]
  rw [decode_add_arith _ _ _ _ (by omega) (by omega)]
  refine Prod.ext ?_ (Prod.ext ?_ ?_) <;> simp only [] <;> omega

/-! ### Interpreter step lemmas -/

/-- Unfolding of one successful loop iteration. -/
theorem run_succ_of_ok {prog : List Nat} {f : Nat} {s s' : VMState}
    (hpc : s.pc < prog.length) (h : execStep prog s = .ok s') :
    run prog (f + 1) s = run prog f s' := by
  simp only [run]
  rw [if_pos hpc, h]

/-- Unfolding of one failing loop iteration. -/
theorem run_succ_of_error {prog : List Nat} {f : Nat} {s : VMState} {e : VMError}
    (hpc : s.pc < prog.length) (h : execStep prog s = .error e) :
    run prog (f + 1) s = .err e s := by
  simp only [run]
  rw [if_pos hpc, h]

/-- The loop halts normally as soon as `pc` leaves the program. -/
theorem run_halt {prog : List Nat} {f : Nat} {s : VMState}
    (h : ¬ s.pc < prog.length) : run prog f s = .halt s := by
  cases f <;> (simp only [run]; rw [if_neg h])

/-- The LOAD branch of `VM.execute`. -/
theorem execStep_load (prog : List Nat) (s : VMState)
    (h67 : prog.getD s.pc 0 = 67) (hlen : s.pc + 4 < prog.length) :
    execStep prog s = .ok { s with
      reg := s.reg.set
        (_decode_load (prog.getD s.pc 0) (prog.getD (s.pc + 1) 0) (prog.getD (s.pc + 2) 0)
          (prog.getD (s.pc + 3) 0) (prog.getD (s.pc + 4) 0)).2
        ((_decode_load (prog.getD s.pc 0) (prog.getD (s.pc + 1) 0) (prog.getD (s.pc + 2) 0)
          (prog.getD (s.pc + 3) 0) (prog.getD (s.pc + 4) 0)).1 : Int),
      pc := s.pc + 5 } := by
  simp only [execStep]
  rw [if_pos ⟨h67, hlen⟩]

/-- The WRITE branch of `VM.execute`, in-range case. -/
theorem execStep_write_ok (prog : List Nat) (s : VMState)
    (h80 : prog.getD s.pc 0 = 80) (hlen : s.pc + 2 < prog.length)
    (haddr : 0 ≤ s.reg.getD
        (_decode_write (prog.getD s.pc 0) (prog.getD (s.pc + 1) 0) (prog.getD (s.pc + 2) 0)).2 0 ∧
      s.reg.getD
        (_decode_write (prog.getD s.pc 0) (prog.getD (s.pc + 1) 0) (prog.getD (s.pc + 2) 0)).2 0
        < (RAM_SIZE : Int)) :
    execStep prog s = .ok { s with
      ram := s.ram.set
        (s.reg.getD
          (_decode_write (prog.getD s.pc 0) (prog.getD (s.pc + 1) 0) (prog.getD (s.pc + 2) 0)).2
          0).toNat
        (s.reg.getD
          (_decode_write (prog.getD s.pc 0) (prog.getD (s.pc + 1) 0) (prog.getD (s.pc + 2) 0)).1 0),
      pc := s.pc + 3 } := by
  simp only [execStep]
  rw [if_neg (by omega), if_neg (by omega), if_pos ⟨h80, hlen⟩, if_pos haddr]

/-- The WRITE branch of `VM.execute`, out-of-range case: the memory fault is
raised before any mutation. -/
theorem execStep_write_fault (prog : List Nat) (s : VMState)
    (h80 : prog.getD s.pc 0 = 80) (hlen : s.pc + 2 < prog.length)
    (haddr : ¬ (0 ≤ s.reg.getD
        (_decode_write (prog.getD s.pc 0) (prog.getD (s.pc + 1) 0) (prog.getD (s.pc + 2) 0)).2 0 ∧
      s.reg.getD
        (_decode_write (prog.getD s.pc 0) (prog.getD (s.pc + 1) 0) (prog.getD (s.pc + 2) 0)).2 0
        < (RAM_SIZE : Int))) :
    execStep prog s = .error .memoryFault := by
  simp only [execStep]
  rw [if_neg (by omega), if_neg (by omega), if_pos ⟨h80, hlen⟩, if_neg haddr]

/-- The ADD branch of `VM.execute`: the register-indirect memory read is
evaluated first; its result decides the rest of the step. -/
theorem execStep_add (prog : List Nat) (s : VMState)
    (h178 : prog.getD s.pc 0 = 178) (hlen : s.pc + 3 < prog.length) :
    execStep prog s =
      (match pyGet s.ram (s.reg.getD
          (_decode_add (prog.getD s.pc 0) (prog.getD (s.pc + 1) 0) (prog.getD (s.pc + 2) 0)
            (prog.getD (s.pc + 3) 0)).2.2 0) with
      | .error e => .error e
      | .ok mem_val =>
        if (_decode_add (prog.getD s.pc 0) (prog.getD (s.pc + 1) 0) (prog.getD (s.pc + 2) 0)
            (prog.getD (s.pc + 3) 0)).2.1 < RAM_SIZE then
          .ok { s with
            ram := s.ram.set
              (_decode_add (prog.getD s.pc 0) (prog.getD (s.pc + 1) 0) (prog.getD (s.pc + 2) 0)
                (prog.getD (s.pc + 3) 0)).2.1
              (s.reg.getD
                (_decode_add (prog.getD s.pc 0) (prog.getD (s.pc + 1) 0) (prog.getD (s.pc + 2) 0)
                  (prog.getD (s.pc + 3) 0)).1 0 + mem_val),
            pc := s.pc + 4 }
        else .error .memoryFault) := by
  simp only [execStep]
  rw [if_neg (by omega), if_neg (by omega), if_neg (by omega),
    if_pos ⟨h178, hlen⟩]

/-- The final `else` branch of `VM.execute`: an opcode outside {67, 200, 80,
178}, or a known opcode without enough remaining bytes, raises the
illegal-instruction error. -/
theorem execStep_illegal (prog : List Nat) (s : VMState)
    (h : ¬ (prog.getD s.pc 0 = 67 ∨ prog.getD s.pc 0 = 200 ∨ prog.getD s.pc 0 = 80 ∨
          prog.getD s.pc 0 = 178) ∨
        (prog.getD s.pc 0 = 67 ∧ prog.length < s.pc + 5) ∨
        (prog.getD s.pc 0 = 200 ∧ prog.length < s.pc + 4) ∨
        (prog.getD s.pc 0 = 80 ∧ prog.length < s.pc + 3) ∨
        (prog.getD s.pc 0 = 178 ∧ prog.length < s.pc + 4)) :
    execStep prog s = .error .illegalInstruction := by
  simp only [execStep]
  rw [if_neg (by omega), if_neg (by omega), if_neg (by omega), if_neg (by omega)]

/-- Every successfully completed instruction advances `pc` by its format's
fixed byte length (3, 4 or 5) and preserves the sizes of the register file
and of memory. -/
theorem execStep_ok_shape (prog : List Nat) (s s' : VMState)
    (h : execStep prog s = .ok s') :
    (s'.pc = s.pc + 3 ∨ s'.pc = s.pc + 4 ∨ s'.pc = s.pc + 5) ∧
    s'.reg.length = s.reg.length ∧ s'.ram.length = s.ram.length := by
  simp only [execStep] at h
  split at h
  · simp only [Except.ok.injEq] at h
    subst h
    exact ⟨Or.inr (Or.inr rfl), by simp, rfl⟩
  · split at h
    · split at h
      · simp only [Except.ok.injEq] at h
        subst h
        exact ⟨Or.inr (Or.inl rfl), by simp, rfl⟩
      · cases h
    · split at h
      · split at h
        · simp only [Except.ok.injEq] at h
          subst h
          exact ⟨Or.inl rfl, rfl, by simp⟩
        · cases h
      · split at h
        · split at h
          · cases h
          · split at h
            · simp only [Except.ok.injEq] at h
              subst h
              exact ⟨Or.inr (Or.inl rfl), rfl, by simp⟩
            · cases h
        · cases h

/-- A run that ends in an error returns exactly the state reached by the
successfully completed prefix of the program, and that state is where the
failing instruction was attempted. -/
theorem run_err_reaches (prog : List Nat) :
    ∀ (fuel : Nat) (s s' : VMState) (e : VMError),
      run prog fuel s = .err e s' →
      Reaches prog s s' ∧ execStep prog s' = .error e := by
  intro fuel
  induction fuel with
  | zero =>
    intro s s' e h
    simp only [run] at h
    split at h <;> cases h
  | succ f ih =>
    intro s s' e h
    simp only [run] at h
    split at h
    · split at h
      · rename_i heq
        cases h
        exact ⟨Reaches.refl _, heq⟩
      · rename_i s₀ heq
        exact ⟨Reaches.step heq (ih s₀ s' e h).1, (ih s₀ s' e h).2⟩
    · cases h

/-- With fuel at least `len(program) - pc` the loop never exhausts its fuel:
`pc` strictly increases by at least 3 every iteration. -/
theorem run_no_fuel_exhaustion (prog : List Nat) :
    ∀ (fuel : Nat) (s : VMState), prog.length ≤ s.pc + fuel →
      (run prog fuel s).isOutOfFuel = false := by
  intro fuel
  induction fuel with
  | zero =>
    intro s hle
    rw [run_halt (by omega)]
    rfl
  | succ f ih =>
    intro s hle
    by_cases hpc : s.pc < prog.length
    · cases hstep : execStep prog s with
      | error e => rw [run_succ_of_error hpc hstep]; rfl
      | ok s₀ =>
        rw [run_succ_of_ok hpc hstep]
        exact ih s₀ (by have := (execStep_ok_shape prog s s₀ hstep).1; omega)
    · rw [run_halt hpc]; rfl

/-- Executing the 5-byte encoding of `LOAD const, Rn` from the initial state
halts normally with `reg[n] = const mod 2^25` and `pc = 5`. -/
theorem load_exec (const : Int) (n : Nat) (hn : n < 32) :
    run (LoadInst_to_bytes const (n : Int)) (LoadInst_to_bytes const (n : Int)).length initState =
      .halt { initState with reg := initState.reg.set n (const % 33554432), pc := 5 } := by
  have hb := LoadInst_to_bytes_arith const (n : Int)
  have hlen : (LoadInst_to_bytes const (n : Int)).length = 5 := by rw [hb]; rfl
  have h67 : (LoadInst_to_bytes const (n : Int)).getD initState.pc 0 = 67 := by rw [hb]; rfl
  have hpc4 : initState.pc + 4 < (LoadInst_to_bytes const (n : Int)).length := by
    rw [hlen]; decide
  have hpc0 : initState.pc < (LoadInst_to_bytes const (n : Int)).length := by
    rw [hlen]; decide
  have hD := load_roundtrip const (n : Int)
  unfold decodeLoadBytes at hD
  have hstep := execStep_load _ _ h67 hpc4
  have hstop : ∀ t : VMState, t.pc = 5 → run (LoadInst_to_bytes const (n : Int)) 4 t = .halt t :=
    fun t ht => run_halt (by rw [hlen, ht]; decide)
  rw [hlen, show (5 : Nat) = 4 + 1 from rfl, run_succ_of_ok hpc0 hstep, hstop]
  · simp only [show initState.pc = 0 from rfl, Nat.zero_add] at hD ⊢
    rw [hD]
    simp only []
    rw [show (((n : Int) % 32)).toNat = n by omega,
      show (((const % 33554432).toNat : Int)) = const % 33554432 by omega]
  · rfl

/-- C1: For every instruction variant (LOAD, READ, WRITE, ADD) and every tuple
of field values within the declared bit widths (registers 5 bits, offset 7
bits, addr 12 bits, const 25 bits), decoding the bytes produced by the
variant's encoder recovers exactly the original field values. -/
theorem C1_decode_encode_roundtrip :
    (∀ const reg : Int, 0 ≤ const → const < 33554432 → 0 ≤ reg → reg < 32 →
      decodeLoadBytes (LoadInst_to_bytes const reg) = (const.toNat, reg.toNat)) ∧
    (∀ src_reg offset dst_reg : Int, 0 ≤ src_reg → src_reg < 32 →
      0 ≤ offset → offset < 128 → 0 ≤ dst_reg → dst_reg < 32 →
      decodeReadBytes (ReadInst_to_bytes src_reg offset dst_reg) =
        (src_reg.toNat, offset.toNat, dst_reg.toNat)) ∧
    (∀ src_reg dst_reg : Int, 0 ≤ src_reg → src_reg < 32 → 0 ≤ dst_reg → dst_reg < 32 →
      decodeWriteBytes (WriteInst_to_bytes src_reg dst_reg) = (src_reg.toNat, dst_reg.toNat)) ∧
    (∀ src_reg addr addr_reg : Int, 0 ≤ src_reg → src_reg < 32 →
      0 ≤ addr → addr < 4096 → 0 ≤ addr_reg → addr_reg < 32 →
      decodeAddBytes (AddInst_to_bytes src_reg addr addr_reg) =
        (src_reg.toNat, addr.toNat, addr_reg.toNat)) := by
  refine ⟨?_, ?_, ?_, ?_⟩
  · intro const reg h1 h2 h3 h4
    rw [load_roundtrip]
    refine Prod.ext ?_ ?_ <;> simp only [] <;> omega
  · intro src_reg offset dst_reg h1 h2 h3 h4 h5 h6
    rw [read_roundtrip]
    refine Prod.ext ?_ (Prod.ext ?_ ?_) <;> simp only [] <;> omega
  · intro src_reg dst_reg h1 h2 h3 h4
    rw [write_roundtrip]
    refine Prod.ext ?_ ?_ <;> simp only [] <;> omega
  · intro src_reg addr addr_reg h1 h2 h3 h4 h5 h6
    rw [add_roundtrip]
    refine Prod.ext ?_ (Prod.ext ?_ ?_) <;> simp only [] <;> omega

/-- Witness for C1 at concrete in-range field values. -/
theorem C1_decode_encode_roundtrip_witness :
    decodeLoadBytes (LoadInst_to_bytes 19088743 21) = ((19088743 : Int).toNat, (21 : Int).toNat) ∧
    decodeReadBytes (ReadInst_to_bytes 13 99 30) =
      ((13 : Int).toNat, (99 : Int).toNat, (30 : Int).toNat) ∧
    decodeWriteBytes (WriteInst_to_bytes 13 30) = ((13 : Int).toNat, (30 : Int).toNat) ∧
    decodeAddBytes (AddInst_to_bytes 13 4000 30) =
      ((13 : Int).toNat, (4000 : Int).toNat, (30 : Int).toNat) :=
  ⟨C1_decode_encode_roundtrip.1 19088743 21 (by decide) (by decide) (by decide) (by decide),
   C1_decode_encode_roundtrip.2.1 13 99 30 (by decide) (by decide) (by decide) (by decide)
     (by decide) (by decide),
   C1_decode_encode_roundtrip.2.2.1 13 30 (by decide) (by decide) (by decide) (by decide),
   C1_decode_encode_roundtrip.2.2.2 13 4000 30 (by decide) (by decide) (by decide) (by decide)
     (by decide) (by decide)⟩

/-- C5: For every integer `const` (including negative values), encoding
`LOAD const, Rn` and then decoding and executing it sets `reg[n]` to `const`
reduced modulo `2^25` (two's-complement-style masking); and in every variant a
field value exceeding its declared bit width is silently truncated to its
low-order bits by encode-then-decode, never rejected with an error. -/
theorem C5_truncation_semantics :
    (∀ (const : Int) (n : Nat), n < 32 →
      run (LoadInst_to_bytes const (n : Int)) (LoadInst_to_bytes const (n : Int)).length
          initState =
        .halt { initState with reg := initState.reg.set n (const % 33554432), pc := 5 }) ∧
    (∀ const reg : Int, decodeLoadBytes (LoadInst_to_bytes const reg) =
      ((const % 33554432).toNat, (reg % 32).toNat)) ∧
    (∀ src_reg offset dst_reg : Int,
      decodeReadBytes (ReadInst_to_bytes src_reg offset dst_reg) =
        ((src_reg % 32).toNat, (offset % 128).toNat, (dst_reg % 32).toNat)) ∧
    (∀ src_reg dst_reg : Int,
      decodeWriteBytes (WriteInst_to_bytes src_reg dst_reg) =
        ((src_reg % 32).toNat, (dst_reg % 32).toNat)) ∧
    (∀ src_reg addr addr_reg : Int,
      decodeAddBytes (AddInst_to_bytes src_reg addr addr_reg) =
        ((src_reg % 32).toNat, (addr % 4096).toNat, (addr_reg % 32).toNat)) :=
  ⟨load_exec, load_roundtrip, read_roundtrip, write_roundtrip, add_roundtrip⟩

/-- Witness for C5 at `const = -1` (which truncates to `2^25 - 1`) and at
oversized fields. -/
theorem C5_truncation_semantics_witness :
    run (LoadInst_to_bytes (-1) (3 : Nat)) (LoadInst_to_bytes (-1) (3 : Nat)).length initState =
      .halt { initState with reg := initState.reg.set 3 ((-1 : Int) % 33554432), pc := 5 } :=
  C5_truncation_semantics.1 (-1) 3 (by decide)

/-- C7: Assembling the three-line program `LOAD 10,R1; LOAD 5,R2; WRITE R1,R2`
and executing it from the initial all-zero state terminates normally with
`ram[5] = 10`. -/
theorem C7_scenario1 : scenario1_result = some 10 := by decide

/-- C8: For every program byte buffer the interpreter loop terminates,
normally or with an error, in at most `len(program)` steps: each successfully
completed step advances `pc` by its format's fixed byte length (3, 4 or 5,
never less than 3), and fuel `len(program) - pc` is never exhausted. -/
theorem C8_termination :
    (∀ (prog : List Nat) (s s' : VMState), execStep prog s = .ok s' →
      s'.pc = s.pc + 3 ∨ s'.pc = s.pc + 4 ∨ s'.pc = s.pc + 5) ∧
    (∀ (prog : List Nat) (fuel : Nat) (s : VMState), prog.length ≤ s.pc + fuel →
      (run prog fuel s).isOutOfFuel = false) :=
  ⟨fun prog s s' h => (execStep_ok_shape prog s s' h).1,
   fun prog fuel s h => run_no_fuel_exhaustion prog fuel s h⟩

/-- Witness for C8: a WRITE step advances `pc` by 3, and the scenario-1 binary
terminates within `len(program)` steps. -/
theorem C8_termination_witness :
    ((⟨(List.replicate 1024 0).set 0 0, List.replicate 32 0, 3⟩ : VMState).pc =
        initState.pc + 3 ∨
      (⟨(List.replicate 1024 0).set 0 0, List.replicate 32 0, 3⟩ : VMState).pc =
        initState.pc + 4 ∨
      (⟨(List.replicate 1024 0).set 0 0, List.replicate 32 0, 3⟩ : VMState).pc =
        initState.pc + 5) ∧
    (run [67, 10, 0, 0, 2, 67, 5, 0, 0, 4, 80, 8, 128] 13 initState).isOutOfFuel = false :=
  ⟨C8_termination.1 [80, 8, 128] initState
      ⟨(List.replicate 1024 0).set 0 0, List.replicate 32 0, 3⟩ (by decide),
   C8_termination.2 [67, 10, 0, 0, 2, 67, 5, 0, 0, 4, 80, 8, 128] 13 initState (by decide)⟩

/-- C9: For every byte buffer, every register index produced by the decoders
is below 32 (each is masked to 5 bits or built from at most 5 bits of machine
bytes), and every successfully executed step preserves the lengths of the
register file and of memory. -/
theorem C9_register_indices_in_bounds :
    (∀ b0 b1 b2 b3 b4 : Nat, (_decode_load b0 b1 b2 b3 b4).2 < 32) ∧
    (∀ b0 b1 b2 b3 : Nat, b2 < 256 → b3 < 256 →
      (_decode_read b0 b1 b2 b3).1 < 32 ∧ (_decode_read b0 b1 b2 b3).2.2 < 32) ∧
    (∀ b0 b1 b2 : Nat, b2 < 256 →
      (_decode_write b0 b1 b2).1 < 32 ∧ (_decode_write b0 b1 b2).2 < 32) ∧
    (∀ b0 b1 b2 b3 : Nat,
      (_decode_add b0 b1 b2 b3).1 < 32 ∧ (_decode_add b0 b1 b2 b3).2.2 < 32) ∧
    (∀ (prog : List Nat) (s s' : VMState), execStep prog s = .ok s' →
      s'.reg.length = s.reg.length ∧ s'.ram.length = s.ram.length) := by
  refine ⟨?_, ?_, ?_, ?_, fun prog s s' h => (execStep_ok_shape prog s s' h).2⟩
  · intro b0 b1 b2 b3 b4
    simp only [_decode_load]
    rw [and_mask31]
    omega
  · intro b0 b1 b2 b3 h2 h3
    rw [decode_read_arith _ _ _ _ h2 h3]
    exact ⟨by simp only []; omega, by simp only []; omega⟩
  · intro b0 b1 b2 h2
    rw [decode_write_arith _ _ _ h2]
    exact ⟨by simp only []; omega, by simp only []; omega⟩
  · intro b0 b1 b2 b3
    simp only [_decode_add]
    rw [and_mask31, and_mask31]
    exact ⟨by omega, by omega⟩

/-- Witness for C9 at the all-ones byte 255 and at a concrete WRITE step. -/
theorem C9_register_indices_in_bounds_witness :
    ((_decode_read 200 255 255 255).1 < 32 ∧ (_decode_read 200 255 255 255).2.2 < 32) ∧
    ((_decode_write 80 255 255).1 < 32 ∧ (_decode_write 80 255 255).2 < 32) ∧
    ((⟨(List.replicate 1024 0).set 0 0, List.replicate 32 0, 3⟩ : VMState).reg.length =
        initState.reg.length ∧
      (⟨(List.replicate 1024 0).set 0 0, List.replicate 32 0, 3⟩ : VMState).ram.length =
        initState.ram.length) :=
  ⟨C9_register_indices_in_bounds.2.1 200 255 255 255 (by decide) (by decide),
   C9_register_indices_in_bounds.2.2.1 80 255 255 (by decide),
   C9_register_indices_in_bounds.2.2.2.2 [80, 8, 128] initState
     ⟨(List.replicate 1024 0).set 0 0, List.replicate 32 0, 3⟩ (by decide)⟩

/-- C2 counterexample: from a machine state in which `reg[addr_reg]` holds
2000, an ADD whose immediate `addr` operand is 2000 (outside [0,1024)) aborts
with Python's `IndexError` from the unchecked read `ram[reg[addr_reg]]`, not
with the interpreter's MemoryFault. -/
theorem C2_add_memory_fault_counterexample :
    (decodeAddBytes (AddInst_to_bytes 0 2000 1)).2.1 = 2000 ∧
    execStep (AddInst_to_bytes 0 2000 1)
        { initState with reg := (List.replicate 32 0).set 1 2000 } = .error .indexError ∧
    execStep (AddInst_to_bytes 0 2000 1)
        { initState with reg := (List.replicate 32 0).set 1 2000 } ≠ .error .memoryFault := by
  decide

/-- C2 (amended): provided the register-indirect read address `reg[addr_reg]`
is itself inside [0,1024) — so that the unchecked read `ram[reg[addr_reg]]`
succeeds — executing an ADD whose immediate `addr` operand is not in [0,1024)
fails with MemoryFault and writes nothing (the step produces no new state),
and if `addr` is in [0,1024) it stores `reg[src_reg] + ram[reg[addr_reg]]`
into `ram[addr]`. -/
theorem C2_add_memory_fault_amended (s : VMState) (b1 b2 b3 : Nat)
    (hram : s.ram.length = 1024) (hpc : s.pc = 0)
    (hv0 : 0 ≤ s.reg.getD (_decode_add 178 b1 b2 b3).2.2 0)
    (hv1 : s.reg.getD (_decode_add 178 b1 b2 b3).2.2 0 < 1024) :
    (1024 ≤ (_decode_add 178 b1 b2 b3).2.1 →
      execStep [178, b1, b2, b3] s = .error .memoryFault) ∧
    ((_decode_add 178 b1 b2 b3).2.1 < 1024 →
      execStep [178, b1, b2, b3] s = .ok { s with
        ram := s.ram.set (_decode_add 178 b1 b2 b3).2.1
          (s.reg.getD (_decode_add 178 b1 b2 b3).1 0 +
            s.ram.getD (s.reg.getD (_decode_add 178 b1 b2 b3).2.2 0).toNat 0),
        pc := 4 }) := by
  obtain ⟨ram, reg, pc⟩ := s
  simp only at hram hpc hv0 hv1
  subst hpc
  have h178 : [178, b1, b2, b3].getD (0 : Nat) 0 = 178 := rfl
  have hlen : (0 : Nat) + 3 < [178, b1, b2, b3].length := by simp
  have hstep := execStep_add [178, b1, b2, b3] ⟨ram, reg, 0⟩ h178 hlen
  simp only [List.getD_cons_zero, List.getD_cons_succ] at hstep
  have hpy : pyGet ram (reg.getD (_decode_add 178 b1 b2 b3).2.2 0) =
      .ok (ram.getD (reg.getD (_decode_add 178 b1 b2 b3).2.2 0).toNat 0) := by
    unfold pyGet
    rw [if_pos hv0, if_pos (by rw [hram]; exact_mod_cast hv1)]
  rw [hpy] at hstep
  constructor
  · intro haddr
    rw [hstep]
    simp only [RAM_SIZE]
    rw [if_neg (by omega)]
  · intro haddr
    rw [hstep]
    simp only [RAM_SIZE]
    rw [if_pos (by omega)]

/-- Witness for C2 (amended): with `reg[addr_reg] = 500` in range, the ADD
with immediate 2000 faults, and the ADD with immediate 500 stores normally. -/
theorem C2_add_memory_fault_amended_witness :
    execStep [178, 3, 232, 4]
        { initState with reg := (List.replicate 32 0).set 1 500 } = .error .memoryFault ∧
    execStep [178, 0, 250, 4]
        { initState with reg := (List.replicate 32 0).set 1 500 } = .ok
      { initState with
        ram := (List.replicate 1024 0).set 500 (0 + (List.replicate 1024 0).getD 500 0),
        reg := (List.replicate 32 0).set 1 500, pc := 4 } :=
  ⟨(C2_add_memory_fault_amended
      { initState with reg := (List.replicate 32 0).set 1 500 } 3 232 4
      (by decide) (by decide) (by decide) (by decide)).1 (by decide),
   (C2_add_memory_fault_amended
      { initState with reg := (List.replicate 32 0).set 1 500 } 0 250 4
      (by decide) (by decide) (by decide) (by decide)).2 (by decide)⟩

/-- C3: When the interpreter aborts with an error, the state it leaves behind
is exactly the one reached by the successfully completed prefix of the
program, and the failing instruction produced no new state; in particular a
WRITE whose target address `reg[dst_reg]` is outside [0,1024) raises
MemoryFault without any mutation of `ram`. -/
theorem C3_error_preserves_state :
    (∀ (prog : List Nat) (fuel : Nat) (s s' : VMState) (e : VMError),
      run prog fuel s = .err e s' →
      Reaches prog s s' ∧ execStep prog s' = .error e) ∧
    (∀ (s : VMState) (b1 b2 : Nat), s.pc = 0 →
      ¬ (0 ≤ s.reg.getD (_decode_write 80 b1 b2).2 0 ∧
         s.reg.getD (_decode_write 80 b1 b2).2 0 < (RAM_SIZE : Int)) →
      execStep [80, b1, b2] s = .error .memoryFault) := by
  refine ⟨fun prog fuel s s' e h => run_err_reaches prog fuel s s' e h, ?_⟩
  intro s b1 b2 hpc haddr
  obtain ⟨ram, reg, pc⟩ := s
  simp only at hpc haddr
  subst hpc
  refine execStep_write_fault [80, b1, b2] ⟨ram, reg, 0⟩ rfl (by simp) ?_
  simpa only [List.getD_cons_zero, List.getD_cons_succ] using haddr

/-- Witness for C3: the one-instruction program `WRITE R1, R2` with
`reg[2] = 2000` errs with MemoryFault, leaving the start state. -/
theorem C3_error_preserves_state_witness :
    (Reaches [80, 8, 128] { initState with reg := (List.replicate 32 0).set 2 2000 }
        { initState with reg := (List.replicate 32 0).set 2 2000 } ∧
      execStep [80, 8, 128] { initState with reg := (List.replicate 32 0).set 2 2000 } =
        .error .memoryFault) ∧
    execStep [80, 8, 128] { initState with reg := (List.replicate 32 0).set 2 2000 } =
      .error .memoryFault :=
  ⟨C3_error_preserves_state.1 [80, 8, 128] 3
      { initState with reg := (List.replicate 32 0).set 2 2000 }
      { initState with reg := (List.replicate 32 0).set 2 2000 } .memoryFault (by decide),
   C3_error_preserves_state.2 { initState with reg := (List.replicate 32 0).set 2 2000 } 8 128
     (by decide) (by decide)⟩

/-- C4: An opcode byte outside {67, 200, 80, 178} at `pc`, or fewer remaining
bytes than the matched opcode's format requires (5, 4, 3, 4 respectively),
makes the step fail with IllegalInstruction; a buffer whose first byte is
0x01 fails immediately with zero steps executed and the state unchanged. -/
theorem C4_illegal_instruction_dispatch :
    (∀ (prog : List Nat) (s : VMState),
      (¬ (prog.getD s.pc 0 = 67 ∨ prog.getD s.pc 0 = 200 ∨ prog.getD s.pc 0 = 80 ∨
            prog.getD s.pc 0 = 178) ∨
        (prog.getD s.pc 0 = 67 ∧ prog.length < s.pc + 5) ∨
        (prog.getD s.pc 0 = 200 ∧ prog.length < s.pc + 4) ∨
        (prog.getD s.pc 0 = 80 ∧ prog.length < s.pc + 3) ∨
        (prog.getD s.pc 0 = 178 ∧ prog.length < s.pc + 4)) →
      execStep prog s = .error .illegalInstruction) ∧
    (∀ (prog : List Nat) (fuel : Nat) (s : VMState), prog.getD 0 0 = 1 → s.pc = 0 →
      0 < prog.length → 0 < fuel →
      run prog fuel s = .err .illegalInstruction s) := by
  refine ⟨fun prog s h => execStep_illegal prog s h, ?_⟩
  intro prog fuel s h1 hpc hlen hfuel
  obtain ⟨f, rfl⟩ : ∃ f, fuel = f + 1 := ⟨fuel - 1, by omega⟩
  exact run_succ_of_error (by omega)
    (execStep_illegal prog s (Or.inl (by rw [hpc, h1]; decide)))

/-- Witness for C4: the buffer `[0x01]` fails immediately. -/
theorem C4_illegal_instruction_dispatch_witness :
    execStep [1, 2, 3] initState = .error .illegalInstruction ∧
    run [1] 1 initState = .err .illegalInstruction initState :=
  ⟨C4_illegal_instruction_dispatch.1 [1, 2, 3] initState (Or.inl (by decide)),
   C4_illegal_instruction_dispatch.2 [1] 1 initState (by decide) (by decide) (by decide)
     (by decide)⟩

/-- C10: The ADD instruction's register-indirect memory read
`ram[reg[addr_reg]]` is performed with no bounds check and before the check on
the immediate `addr`: a value of `reg[addr_reg]` in [-1024,-1] silently wraps
to `ram[1024 + reg[addr_reg]]` and execution proceeds (storing the wrapped
read if the immediate is in range), while a value outside [-1024,1024) aborts
with IndexError — not MemoryFault — even when the immediate `addr` is also
out of range. -/
theorem C10_unchecked_indirect_read (s : VMState) (b1 b2 b3 : Nat)
    (hram : s.ram.length = 1024) (hpc : s.pc = 0) :
    ((-1024 ≤ s.reg.getD (_decode_add 178 b1 b2 b3).2.2 0 ∧
        s.reg.getD (_decode_add 178 b1 b2 b3).2.2 0 < 0) →
      execStep [178, b1, b2, b3] s ≠ .error .indexError ∧
      ((_decode_add 178 b1 b2 b3).2.1 < 1024 →
        execStep [178, b1, b2, b3] s = .ok { s with
          ram := s.ram.set (_decode_add 178 b1 b2 b3).2.1
            (s.reg.getD (_decode_add 178 b1 b2 b3).1 0 +
              s.ram.getD (s.reg.getD (_decode_add 178 b1 b2 b3).2.2 0 + 1024).toNat 0),
          pc := 4 })) ∧
    ((s.reg.getD (_decode_add 178 b1 b2 b3).2.2 0 < -1024 ∨
        1024 ≤ s.reg.getD (_decode_add 178 b1 b2 b3).2.2 0) →
      execStep [178, b1, b2, b3] s = .error .indexError) := by
  obtain ⟨ram, reg, pc⟩ := s
  simp only at hram hpc ⊢
  subst hpc
  have h178 : [178, b1, b2, b3].getD (0 : Nat) 0 = 178 := rfl
  have hlen : (0 : Nat) + 3 < [178, b1, b2, b3].length := by simp
  have hstep := execStep_add [178, b1, b2, b3] ⟨ram, reg, 0⟩ h178 hlen
  simp only [List.getD_cons_zero, List.getD_cons_succ] at hstep
  constructor
  · rintro ⟨hneg1, hneg2⟩
    have hpy : pyGet ram (reg.getD (_decode_add 178 b1 b2 b3).2.2 0) =
        .ok (ram.getD (reg.getD (_decode_add 178 b1 b2 b3).2.2 0 + 1024).toNat 0) := by
      unfold pyGet
      rw [if_neg (by omega), if_pos (by rw [hram]; push_cast; omega), hram]
      norm_num
    rw [hpy] at hstep
    refine ⟨?_, ?_⟩
    · rw [hstep]
      simp only [RAM_SIZE]
      split <;> simp
    · intro haddr
      rw [hstep]
      simp only [RAM_SIZE]
      rw [if_pos haddr]
  · intro hout
    have hpy : pyGet ram (reg.getD (_decode_add 178 b1 b2 b3).2.2 0) =
        .error .indexError := by
      unfold pyGet
      rcases hout with hlow | hhigh
      · rw [if_neg (by omega), if_neg (by rw [hram]; push_cast; omega)]
      · rw [if_pos (by omega), if_neg (by rw [hram]; push_cast; omega)]
    rw [hpy] at hstep
    rw [hstep]

/-- Witness for C10: with `reg[1] = -5` the ADD with immediate 500 reads the
wrapped cell `ram[1019]` and stores normally; with `reg[1] = 2000` the same
instruction aborts with IndexError. -/
theorem C10_unchecked_indirect_read_witness :
    (execStep [178, 0, 250, 4] { initState with reg := (List.replicate 32 0).set 1 (-5) } ≠
        .error .indexError ∧
      execStep [178, 0, 250, 4] { initState with reg := (List.replicate 32 0).set 1 (-5) } =
        .ok { initState with
          ram := (List.replicate 1024 0).set 500
            (((List.replicate 32 0).set 1 (-5)).getD 0 0 +
              (List.replicate 1024 0).getD
                (((List.replicate 32 0).set 1 (-5)).getD 1 0 + 1024).toNat 0),
          reg := (List.replicate 32 0).set 1 (-5), pc := 4 }) ∧
    execStep [178, 0, 250, 4] { initState with reg := (List.replicate 32 0).set 1 2000 } =
      .error .indexError :=
  ⟨⟨((C10_unchecked_indirect_read
        { initState with reg := (List.replicate 32 0).set 1 (-5) } 0 250 4
        (by decide) (by decide)).1 (by decide)).1,
    ((C10_unchecked_indirect_read
        { initState with reg := (List.replicate 32 0).set 1 (-5) } 0 250 4
        (by decide) (by decide)).1 (by decide)).2 (by decide)⟩,
   (C10_unchecked_indirect_read
      { initState with reg := (List.replicate 32 0).set 1 2000 } 0 250 4
      (by decide) (by decide)).2 (by decide)⟩

/-- C6: `parse_register` succeeds exactly on tokens that, after stripping
surrounding whitespace, consist of `R` or `r` followed by one or more decimal
digits whose value is in [0,31], returning that value; anything else fails
with the InvalidOperand error.  In particular "R32" fails, "R31" returns 31
and "r0" returns 0. -/
theorem C6_parse_register_characterization :
    (∀ (s : List Char) (n : Int), parse_register s = .ok n ↔
      ∃ c ds, pyStrip s = c :: ds ∧ (c = 'R' ∨ c = 'r') ∧ ds ≠ [] ∧
        ds.all Char.isDigit = true ∧ n = (digitsVal ds : Int) ∧ 0 ≤ n ∧ n ≤ 31) ∧
    (∀ (s : List Char) (e : AsmError), parse_register s = .error e → e = .invalidOperand) ∧
    parse_register "R32".toList = .error .invalidOperand ∧
    parse_register "R31".toList = .ok 31 ∧
    parse_register "r0".toList = .ok 0 := by
  refine ⟨?_, ?_, by decide, by decide, by decide⟩
  case refine_2 =>
    intro s e h
    unfold parse_register at h
    split at h
    · split at h
      · dsimp only at h
        split at h
        · cases h
        · simp only [Except.error.injEq] at h
          exact h.symm
      · simp only [Except.error.injEq] at h
        exact h.symm
    · simp only [Except.error.injEq] at h
      exact h.symm
  intro s n
  unfold parse_register
  cases h : pyStrip s with
  | nil =>
    simp only [h]
    constructor
    · intro he
      exact absurd he (by simp)
    · rintro ⟨c, ds, heq, -⟩
      exact absurd heq (by simp)
  | cons c rest =>
    simp only [h]
    by_cases hc : (c = 'R' ∨ c = 'r') ∧ rest ≠ [] ∧ rest.all Char.isDigit
    · rw [if_pos hc]
      by_cases hn2 : 0 ≤ (digitsVal rest : Int) ∧ (digitsVal rest : Int) ≤ 31
      · rw [if_pos hn2]
        simp only [Except.ok.injEq]
        constructor
        · intro he
          exact ⟨c, rest, rfl, hc.1, hc.2.1, hc.2.2, he.symm, he ▸ hn2.1, he ▸ hn2.2⟩
        · rintro ⟨c', ds', heq, hc', hne', hdig', hn', h0', h31'⟩
          simp only [List.cons.injEq] at heq
          obtain ⟨rfl, rfl⟩ := heq
          exact hn'.symm
      · rw [if_neg hn2]
        constructor
        · intro he
          exact absurd he (by simp)
        · rintro ⟨c', ds', heq, hc', hne', hdig', hn', h0', h31'⟩
          simp only [List.cons.injEq] at heq
          obtain ⟨rfl, rfl⟩ := heq
          exact absurd ⟨hn' ▸ h0', hn' ▸ h31'⟩ hn2
    · rw [if_neg hc]
      constructor
      · intro he
        exact absurd he (by simp)
      · rintro ⟨c', ds', heq, hc', hne', hdig', hn', h0', h31'⟩
        simp only [List.cons.injEq] at heq
        obtain ⟨rfl, rfl⟩ := heq
        exact absurd ⟨hc', hne', hdig'⟩ hc

/-- Witness for C6: the register token "R9" satisfies the success
characterization, and the failing token "R32" fails with InvalidOperand. -/
theorem C6_parse_register_characterization_witness :
    (∃ c ds, pyStrip "R9".toList = c :: ds ∧ (c = 'R' ∨ c = 'r') ∧ ds ≠ [] ∧
      ds.all Char.isDigit = true ∧ (9 : Int) = (digitsVal ds : Int) ∧ (0 : Int) ≤ 9 ∧
      (9 : Int) ≤ 31) ∧
    AsmError.invalidOperand = AsmError.invalidOperand :=
  ⟨(C6_parse_register_characterization.1 "R9".toList 9).mp (by decide),
   C6_parse_register_characterization.2.1 "R32".toList .invalidOperand (by decide)⟩

end Ikbo
